import Mathlib

/-!
Verification development for the BITSS-VWAR endpoint anti-malware core.

Shallow embedding of the capture / scan / route pipeline and its supporting
subsystems (quarantine store, ScanVault capture, exclusion resolver, vault
processor restore branch, persistent queue, installation detector, license
validator, signature compiler), translated from the Python sources:

  Scanning/quarantine.py, Scanning/scanvault.py, Scanning/scanner_core.py,
  Scanning/vault_processor.py, Scanning/yara_engine.py, utils/exclusions.py,
  utils/scanvault_queue.py, utils/installation_detector.py,
  activation/license_utils.py, config.py.

Opaque environment effects (hashes, wall-clock timestamps, the outcome of a
single OS move attempt, process snapshots) are passed in as explicit inputs so
the control flow of each function is modelled exactly.  Paths are modelled as
absolute strings (so `os.path.abspath` is the identity); ASCII lowercasing
models Python `str.lower` on path strings.
-/

namespace VWAR

/-! ## String helpers modelling the Python path primitives -/

/-- Python `str.replace("\\", "/")` on a path (single-character pattern, hence
a character-wise map). -/
def pyReplaceSlash (s : String) : String :=
  ⟨s.data.map (fun c => if c = '\\' then '/' else c)⟩

/-- Python `str.lower` restricted to ASCII (path strings): uses the core
character lowercasing. -/
def pyLower (s : String) : String :=
  ⟨s.data.map Char.toLower⟩

/-- `a.startswith(b)` on Python strings. -/
def pyStartsWith (a b : String) : Bool :=
  b.data.isPrefixOf a.data

/-- `a.endswith(b)` on Python strings. -/
def pyEndsWith (a b : String) : Bool :=
  b.data.isSuffixOf a.data

/-- Python `sub in s` (contiguous substring containment). -/
def pySubstr (sub s : String) : Bool :=
  (List.range (s.data.length + 1)).any (fun i => sub.data.isPrefixOf (s.data.drop i))

/-- Index of the last occurrence of a character satisfying `p`, if any. -/
def lastIdxOf (p : Char → Bool) (cs : List Char) : Option Nat :=
  (cs.reverse.findIdx? p).map (fun j => cs.length - 1 - j)

/-- `os.path.basename`: the component after the last path separator
(`/` or `\`). -/
def pyBasename (s : String) : String :=
  match lastIdxOf (fun c => c == '/' || c == '\\') s.data with
  | none => s
  | some k => ⟨s.data.drop (k + 1)⟩

/-- `os.path.dirname`: everything before the last path separator. -/
def pyDirname (s : String) : String :=
  match lastIdxOf (fun c => c == '/' || c == '\\') s.data with
  | none => ""
  | some k => ⟨s.data.take k⟩

/-- `os.path.splitext(name)[1]` for a basename: the suffix from the last dot,
empty when every character before that dot is itself a dot (Python ignores
leading dots). -/
def pySplitextExt (name : String) : String :=
  match lastIdxOf (fun c => c == '.') name.data with
  | none => ""
  | some k => if (name.data.take k).all (fun c => c == '.') then "" else ⟨name.data.drop k⟩

/-- Python `s.split(sep)` for a single-character separator. -/
def splitOnChar (sep : Char) (cs : List Char) : List (List Char) :=
  cs.foldr (fun c acc =>
    match acc with
    | [] => if c = sep then [[], []] else [[c]]
    | seg :: rest => if c = sep then [] :: (seg :: rest) else (c :: seg) :: rest) [[]]

/-! ## config.py constants -/

def MAX_QUARANTINE_FILES : Nat := 1000

def MAX_QUARANTINE_SIZE_MB : Nat := 5000

def MAX_QUEUE_SIZE : Nat := 500

def MAX_RESTORES_PER_MINUTE : Nat := 30

def LICENSE_WARNING_DAYS : Int := 7

def BURST_WINDOW_SECONDS : ℚ := 10

/-! ## Quarantine store (Scanning/quarantine.py)

The quarantine folder is modelled as the list of its `.quarantined` files,
each carrying its creation time and size in bytes.  `os.path.getctime`
ordering drives the oldest-first pruning. -/

structure QFile where
  name : String
  ctime : Nat
  size : Nat
deriving DecidableEq, Repr

/-- Insert into a list sorted by ascending ctime (stable). -/
def insertByCtime (f : QFile) : List QFile → List QFile
  | [] => [f]
  | g :: gs => if f.ctime ≤ g.ctime then f :: g :: gs else g :: insertByCtime f gs

/-- `files_with_time.sort()` in `_cleanup_old_quarantine_files`: ascending by
ctime (oldest first). -/
def sortByCtime : List QFile → List QFile
  | [] => []
  | f :: fs => insertByCtime f (sortByCtime fs)

/-- `_cleanup_old_quarantine_files(keep_newest)`: if at most `keep_newest`
files exist, do nothing; otherwise delete the oldest `len - keep_newest`
files (with their sidecars). -/
def cleanup_old_quarantine_files (keepNewest : Nat) (files : List QFile) : List QFile :=
  if files.length ≤ keepNewest then files
  else (sortByCtime files).drop (files.length - keepNewest)

/-- Total size of the folder in bytes. -/
def quarantineTotalBytes (files : List QFile) : Nat :=
  (files.map QFile.size).sum

/-- `_check_quarantine_limits`: count cap first (prune to 80% of the file-count
cap), else size cap (`total_size_mb >= MAX_QUARANTINE_SIZE_MB`, which for
exact float arithmetic on byte counts is `bytes ≥ MB·2^20`; prune keeps
`int(MAX_QUARANTINE_FILES * 0.5)` newest files). -/
def check_quarantine_limits (files : List QFile) : List QFile :=
  if files.length ≥ MAX_QUARANTINE_FILES then
    cleanup_old_quarantine_files (MAX_QUARANTINE_FILES * 8 / 10) files
  else if quarantineTotalBytes files ≥ MAX_QUARANTINE_SIZE_MB * 1024 * 1024 then
    cleanup_old_quarantine_files (MAX_QUARANTINE_FILES * 5 / 10) files
  else files

/-- One attempt of the move-with-retries loop: does the source exist at this
attempt, and would `shutil.move` succeed. -/
structure MoveAttempt where
  srcExists : Bool
  moveOk : Bool
deriving DecidableEq, Repr

inductive MoveResult
  | moved
  | moveFailed          -- "Move failed after 3 attempts"
  | missingAfterWait    -- for-else: "File no longer exists after waiting"
deriving DecidableEq, Repr

/-- The `for attempt in range(3)` retry loop of `quarantine_file`: on the last
attempt a move exception raises; if the loop finishes without a successful
move (source kept missing), the `for`-`else` raises. -/
def moveWithRetries : List MoveAttempt → MoveResult
  | [] => .missingAfterWait
  | a :: rest =>
      if a.srcExists then
        if a.moveOk then .moved
        else if rest.isEmpty then .moveFailed
        else moveWithRetries rest
      else moveWithRetries rest

/-- Sidecar `.meta` JSON written by `quarantine_file`. -/
structure QMeta where
  original_path : String
  quarantined_path : String
  timestamp : String
  matched_rules : List String
deriving DecidableEq, Repr

inductive QError
  | fileMissing        -- "File no longer exists" pre-check
  | moveFailed
  | missingAfterWait
deriving DecidableEq, Repr

structure QOutcome where
  folder : List QFile
  result : Except QError String
  sidecar : Option QMeta
deriving Repr

def QUARANTINE_FOLDER : String := "quarantine"

/-- `quarantine_file(file_path, matched_rules)`.  Inputs that come from the
environment: the current folder contents, whether the file exists and its
size, the two `strftime` renderings of `datetime.now()`, the 16-char path
hash, the ctime the moved file receives, and the per-attempt move oracle. -/
def quarantine_file (folder : List QFile) (filePath : String)
    (fileSize : Option Nat) (matchedRules : Option (List String))
    (timestampFile timestampHuman : String) (pathHash16 : String)
    (newCtime : Nat) (attempts : List MoveAttempt) : QOutcome :=
  match fileSize with
  | none => { folder := folder, result := .error .fileMissing, sidecar := none }
  | some sz =>
      let folder1 := check_quarantine_limits folder
      let fileName := pyBasename filePath
      let quarantineFilename := fileName ++ "__" ++ timestampFile ++ "__" ++ pathHash16 ++ ".quarantined"
      let quarantinePath := QUARANTINE_FOLDER ++ "/" ++ quarantineFilename
      match moveWithRetries attempts with
      | .moved =>
          let actualOriginalPath := pyReplaceSlash filePath
          { folder := folder1 ++ [{ name := quarantineFilename, ctime := newCtime, size := sz }],
            result := .ok quarantinePath,
            sidecar := some { original_path := actualOriginalPath,
                              quarantined_path := quarantinePath,
                              timestamp := timestampHuman,
                              matched_rules := matchedRules.getD [] } }
      | .moveFailed =>
          { folder := folder1, result := .error .moveFailed, sidecar := none }
      | .missingAfterWait =>
          { folder := folder1, result := .error .missingAfterWait, sidecar := none }

/-! Supporting lemmas for the quarantine cap claims. -/

theorem insertByCtime_length (f : QFile) (l : List QFile) :
    (insertByCtime f l).length = l.length + 1 := by
  induction l with
  | nil => rfl
  | cons g gs ih =>
      simp only [insertByCtime]
      split
      · simp
      · simp [ih]

theorem sortByCtime_length (l : List QFile) :
    (sortByCtime l).length = l.length := by
  induction l with
  | nil => rfl
  | cons f fs ih => simp [sortByCtime, insertByCtime_length, ih]

theorem cleanup_length_le (k : Nat) (files : List QFile) :
    (cleanup_old_quarantine_files k files).length ≤ max k files.length := by
  unfold cleanup_old_quarantine_files
  split
  · exact le_max_of_le_right le_rfl
  · refine le_max_of_le_left ?_
    rename_i h
    simp only [List.length_drop, sortByCtime_length]
    omega

theorem check_limits_length_lt (files : List QFile) :
    (check_quarantine_limits files).length + 1 ≤ MAX_QUARANTINE_FILES := by
  have h80 : MAX_QUARANTINE_FILES * 8 / 10 = 800 := by decide
  have h50 : MAX_QUARANTINE_FILES * 5 / 10 = 500 := by decide
  unfold check_quarantine_limits
  split
  · unfold cleanup_old_quarantine_files
    rw [h80]
    split
    · rename_i hcount hle
      unfold MAX_QUARANTINE_FILES at hcount
      omega
    · simp only [List.length_drop, sortByCtime_length]
      rename_i hcount _
      unfold MAX_QUARANTINE_FILES at hcount ⊢
      omega
  · split
    · rename_i hcount _
      have hmax := cleanup_length_le (MAX_QUARANTINE_FILES * 5 / 10) files
      rw [h50] at hmax ⊢
      rcases le_max_iff.mp hmax with h | h <;>
        · unfold MAX_QUARANTINE_FILES at hcount ⊢
          omega
    · rename_i hcount _
      unfold MAX_QUARANTINE_FILES at *
      omega

/-- Claim C1, amended part (provable count invariant): after any call to
`quarantine_file` on an existing file, the number of `.quarantined` files is
at most `MAX_QUARANTINE_FILES`, whatever the starting state. -/
theorem quarantine_file_count_invariant (folder : List QFile) (filePath : String)
    (sz : Nat) (matchedRules : Option (List String))
    (tsF tsH hash16 : String) (newCtime : Nat) (attempts : List MoveAttempt) :
    (quarantine_file folder filePath (some sz) matchedRules tsF tsH hash16
        newCtime attempts).folder.length ≤ MAX_QUARANTINE_FILES := by
  have hbound := check_limits_length_lt folder
  unfold quarantine_file
  cases hmv : moveWithRetries attempts with
  | moved =>
      simp only [hmv]
      simpa using hbound
  | moveFailed =>
      simp only [hmv]
      omega
  | missingAfterWait =>
      simp only [hmv]
      omega

/-- Witness for `quarantine_file_count_invariant` at a concrete input. -/
theorem quarantine_file_count_invariant_witness :
    (quarantine_file [⟨"a", 0, 7⟩] "c:/x/evil.exe" (some 9) (some ["r"])
        "20250101000000" "2025-01-01 00:00:00" "abcd" 5
        [⟨true, true⟩, ⟨true, true⟩, ⟨true, true⟩]).folder.length ≤ MAX_QUARANTINE_FILES :=
  quarantine_file_count_invariant [⟨"a", 0, 7⟩] "c:/x/evil.exe" 9 (some ["r"])
    "20250101000000" "2025-01-01 00:00:00" "abcd" 5
    [⟨true, true⟩, ⟨true, true⟩, ⟨true, true⟩]

/-- Claim C1, counterexample: two quarantined files of 3000 MiB each already
exceed the 5000 MiB size cap; the size-based pruning keeps the
`int(MAX_QUARANTINE_FILES * 0.5) = 500` *newest files by count* — which here
deletes nothing — and the new file is then added, so after the call the
total size (6100 MiB) still exceeds `MAX_QUARANTINE_SIZE_MB`: the claimed
size invariant and the "reduce to 50% of the size cap" behaviour are false. -/
theorem quarantine_size_cap_counterexample :
    ¬ (quarantineTotalBytes
        (quarantine_file
          [⟨"old1", 0, 3000 * 1024 * 1024⟩, ⟨"old2", 1, 3000 * 1024 * 1024⟩]
          "c:/x/evil.exe" (some (100 * 1024 * 1024)) (some ["r"])
          "20250101000000" "2025-01-01 00:00:00" "abcd" 5
          [⟨true, true⟩, ⟨true, true⟩, ⟨true, true⟩]).folder
        ≤ MAX_QUARANTINE_SIZE_MB * 1024 * 1024) := by
  decide

/-- Claim C5: `quarantine_file` writes the sidecar only after a successful
move, with the case-preserved original path, the quarantine destination, the
human timestamp and the matched rules; every failure (pre-check, retry
exhaustion, source disappearing) raises and leaves no sidecar behind. -/
theorem quarantine_file_sidecar_atomicity (folder : List QFile) (filePath : String)
    (fileSize : Option Nat) (matchedRules : Option (List String))
    (tsF tsH hash16 : String) (newCtime : Nat) (attempts : List MoveAttempt) :
    (∀ e, (quarantine_file folder filePath fileSize matchedRules tsF tsH hash16
        newCtime attempts).result = .error e →
      (quarantine_file folder filePath fileSize matchedRules tsF tsH hash16
        newCtime attempts).sidecar = none) ∧
    (∀ m, (quarantine_file folder filePath fileSize matchedRules tsF tsH hash16
        newCtime attempts).sidecar = some m →
      fileSize.isSome = true ∧ moveWithRetries attempts = .moved ∧
      m.original_path = pyReplaceSlash filePath ∧
      (quarantine_file folder filePath fileSize matchedRules tsF tsH hash16
        newCtime attempts).result = .ok m.quarantined_path ∧
      m.timestamp = tsH ∧ m.matched_rules = matchedRules.getD []) ∧
    (moveWithRetries attempts ≠ .moved ∨ fileSize = none →
      ∃ e, (quarantine_file folder filePath fileSize matchedRules tsF tsH hash16
        newCtime attempts).result = .error e) := by
  unfold quarantine_file
  cases fileSize with
  | none =>
      refine ⟨fun e _ => rfl, fun m hm => by simp at hm, fun _ => ⟨.fileMissing, rfl⟩⟩
  | some sz =>
      cases hmv : moveWithRetries attempts with
      | moved =>
          refine ⟨fun e he => by simp [hmv] at he, fun m hm => ?_, fun h => ?_⟩
          · simp only [hmv, Option.some.injEq] at hm
            subst hm
            simp [hmv]
          · rcases h with h | h
            · exact absurd rfl h
            · exact absurd h (by simp)
      | moveFailed =>
          refine ⟨fun e _ => by simp [hmv], fun m hm => by simp [hmv] at hm,
            fun _ => ⟨.moveFailed, by simp [hmv]⟩⟩
      | missingAfterWait =>
          refine ⟨fun e _ => by simp [hmv], fun m hm => by simp [hmv] at hm,
            fun _ => ⟨.missingAfterWait, by simp [hmv]⟩⟩

/-- Witness for `quarantine_file_sidecar_atomicity`: instantiate at a failing
move and read off the error/no-sidecar conclusion. -/
theorem quarantine_file_sidecar_atomicity_witness :
    ∃ e, (quarantine_file [] "c:/x/evil.exe" (some 9) none
        "t" "h" "abcd" 5 [⟨true, false⟩, ⟨true, false⟩, ⟨true, false⟩]).result = .error e :=
  (quarantine_file_sidecar_atomicity [] "c:/x/evil.exe" (some 9) none
      "t" "h" "abcd" 5 [⟨true, false⟩, ⟨true, false⟩, ⟨true, false⟩]).2.2
    (Or.inl (by decide))

/-! ## ScanVault capture (Scanning/scanvault.py)

Wall-clock time is rational-valued.  The per-second rate limiter and the
burst check only sleep (or, after ten retries, proceed anyway) and never
change which branch the capture takes, so they are modelled by the sliding
capture-timestamp window alone.  `_make_signature`'s hash output and the
installation-detector verdict are inputs. -/

def SIGNATURE_TTL : ℚ := 15

def SCANVAULT_FOLDER : String := "scanvault"

structure CaptureState where
  recentSignatures : List (String × ℚ)
  recentCaptures : List (String × ℚ)
  captureTimestamps : List ℚ
deriving Repr

/-- Purging a dedup table: the source pops every entry with `now - t > TTL`,
keeping exactly those with `now - t ≤ TTL`. -/
def purgeTable (now : ℚ) (tbl : List (String × ℚ)) : List (String × ℚ) :=
  tbl.filter (fun e => decide (now - e.2 ≤ SIGNATURE_TTL))

/-- Python dict assignment `tbl[k] = v` on a keyed association list. -/
def dictSet (tbl : List (String × ℚ)) (k : String) (v : ℚ) : List (String × ℚ) :=
  if tbl.any (fun e => e.1 == k) then tbl.map (fun e => if e.1 == k then (k, v) else e)
  else tbl ++ [(k, v)]

/-- History stub written for a suppressed duplicate. -/
structure DupHistoryMeta where
  original_path : String
  final_status : String
  signature : String
  file_name : String
  event : String
deriving DecidableEq, Repr

inductive CaptureResult
  | vaulted (vaultedPath metaPath : String)
  | installationModeQueued     -- queued for in-place scanning, then raises
  | duplicateSuppressed (sig : String)
  | fileMissing
  | moveFailed
deriving DecidableEq, Repr

def CaptureResult.isVaulted : CaptureResult → Bool
  | .vaulted _ _ => true
  | _ => false

structure CaptureOutcome where
  result : CaptureResult
  state : CaptureState
  historyEntry : Option DupHistoryMeta
  moved : Bool
deriving Repr

/-- `vault_capture_file(file_path, event)`.  `fingerprint` is
`_make_signature(file_path)` (`none` when the file does not exist),
`installing` is `detector.is_file_being_installed(file_path)`, `moveOk`
abstracts the ten-attempt move loop, and `timestampFile`/`pathHash16`
are the `strftime` and truncated-SHA-256 name components. -/
def vault_capture_file (st : CaptureState) (filePath : String)
    (fingerprint : Option String) (installing : Bool) (now : ℚ)
    (moveOk : Bool) (event : Option String)
    (timestampFile pathHash16 : String) : CaptureOutcome :=
  match fingerprint with
  | none => { result := .fileMissing, state := st, historyEntry := none, moved := false }
  | some sig =>
      let ts := (st.captureTimestamps.filter
        (fun t => decide (now - t < BURST_WINDOW_SECONDS))) ++ [now]
      let st1 : CaptureState := { st with captureTimestamps := ts }
      if installing then
        { result := .installationModeQueued, state := st1, historyEntry := none, moved := false }
      else
        let normalizedLower := pyLower (pyReplaceSlash filePath)
        let sigs := purgeTable now st1.recentSignatures
        let paths := purgeTable now st1.recentCaptures
        let st2 : CaptureState := { st1 with recentSignatures := sigs, recentCaptures := paths }
        if sigs.any (fun e => e.1 == sig) || paths.any (fun e => e.1 == normalizedLower) then
          { result := .duplicateSuppressed sig, state := st2,
            historyEntry := some { original_path := pyReplaceSlash filePath,
                                   final_status := "DUPLICATE_SUPPRESSED",
                                   signature := sig,
                                   file_name := pyBasename filePath,
                                   event := event.getD "created" },
            moved := false }
        else
          let fileName := pyBasename filePath
          let vaultedFilename :=
            fileName ++ "__" ++ timestampFile ++ "__" ++ pathHash16 ++ ".vaulted"
          let vaultedPath := SCANVAULT_FOLDER ++ "/" ++ vaultedFilename
          if moveOk then
            -- Source line 225 reassigns `normalized_path` WITHOUT `.lower()`,
            -- so the key recorded for the path table is case-preserved.
            let normalizedPreserved := pyReplaceSlash filePath
            { result := .vaulted vaultedPath (vaultedPath ++ ".meta"),
              state := { st2 with recentSignatures := dictSet sigs sig now,
                                  recentCaptures := dictSet paths normalizedPreserved now },
              historyEntry := none, moved := true }
          else
            { result := .moveFailed, state := st2, historyEntry := none, moved := false }

theorem dictSet_of_not_mem (tbl : List (String × ℚ)) (k : String) (v : ℚ)
    (h : tbl.any (fun e => e.1 == k) = false) :
    dictSet tbl k v = tbl ++ [(k, v)] := by
  simp [dictSet, h]

/-- A successful capture leaves the purged signature table extended by the
captured signature, and the purged path table extended by the
*case-preserved* normalized path. -/
theorem capture_success_state (st : CaptureState) (p sig : String) (now : ℚ)
    (ev : Option String) (tf ph : String)
    (h : (vault_capture_file st p (some sig) false now true ev tf ph).result.isVaulted = true) :
    (vault_capture_file st p (some sig) false now true ev tf ph).state.recentSignatures
        = purgeTable now st.recentSignatures ++ [(sig, now)] ∧
    (vault_capture_file st p (some sig) false now true ev tf ph).state.recentCaptures
        = dictSet (purgeTable now st.recentCaptures) (pyReplaceSlash p) now := by
  unfold vault_capture_file at h ⊢
  simp only [Bool.false_eq_true, if_false] at h ⊢
  by_cases hdup : ((purgeTable now st.recentSignatures).any (fun e => e.1 == sig) ||
      (purgeTable now st.recentCaptures).any
        (fun e => e.1 == pyLower (pyReplaceSlash p))) = true
  · rw [if_pos hdup] at h
    simp [CaptureResult.isVaulted] at h
  · rw [if_neg hdup] at h ⊢
    rw [Bool.or_eq_true] at hdup
    push_neg at hdup
    simp only [Bool.not_eq_true] at hdup
    exact ⟨dictSet_of_not_mem _ _ _ hdup.1, rfl⟩

/-- An entry just inserted at time `v` survives purging at any `now` with
`now - v ≤ TTL`, so the key is found by the dedup lookup. -/
theorem purge_keeps_fresh (now v : ℚ) (tbl : List (String × ℚ)) (k : String)
    (h : now - v ≤ SIGNATURE_TTL) :
    (purgeTable now (tbl ++ [(k, v)])).any (fun e => e.1 == k) = true := by
  unfold purgeTable
  rw [List.filter_append, List.any_append]
  have : List.filter (fun e => decide (now - e.2 ≤ SIGNATURE_TTL)) [(k, v)] = [(k, v)] := by
    simp [List.filter, h]
  rw [this]
  simp

/-- If the purged signature table already contains the computed signature,
the capture takes the duplicate branch: a `DUPLICATE_SUPPRESSED` history
stub is written, no move happens, and the call raises. -/
theorem capture_duplicate_branch (st : CaptureState) (p sig : String) (now : ℚ)
    (mo : Bool) (ev : Option String) (tf ph : String)
    (hsig : (purgeTable now st.recentSignatures).any (fun e => e.1 == sig) = true) :
    (vault_capture_file st p (some sig) false now mo ev tf ph).result
        = .duplicateSuppressed sig ∧
    (vault_capture_file st p (some sig) false now mo ev tf ph).moved = false ∧
    (vault_capture_file st p (some sig) false now mo ev tf ph).historyEntry
        = some { original_path := pyReplaceSlash p,
                 final_status := "DUPLICATE_SUPPRESSED",
                 signature := sig,
                 file_name := pyBasename p,
                 event := ev.getD "created" } := by
  unfold vault_capture_file
  simp [hsig]

/-- Claim C2, amended: if a capture of `p` succeeds at time `t₁` and a second
capture of `p` at `t₂` (with `t₂ - t₁ < 15 s`) computes the same fingerprint,
then — provided the installation detector does not claim `p` at `t₂` — the
second call writes a `DUPLICATE_SUPPRESSED` history entry, performs no move,
and raises. -/
theorem vault_capture_dedup_law (st : CaptureState) (p sig : String) (t1 t2 : ℚ)
    (ev1 ev2 : Option String) (tf1 ph1 tf2 ph2 : String) (mo2 : Bool)
    (hsucc : (vault_capture_file st p (some sig) false t1 true ev1 tf1 ph1).result.isVaulted
        = true)
    (hle : t1 ≤ t2) (hlt : t2 - t1 < 15) :
    (vault_capture_file (vault_capture_file st p (some sig) false t1 true ev1 tf1 ph1).state
        p (some sig) false t2 mo2 ev2 tf2 ph2).result = .duplicateSuppressed sig ∧
    (vault_capture_file (vault_capture_file st p (some sig) false t1 true ev1 tf1 ph1).state
        p (some sig) false t2 mo2 ev2 tf2 ph2).moved = false ∧
    (vault_capture_file (vault_capture_file st p (some sig) false t1 true ev1 tf1 ph1).state
        p (some sig) false t2 mo2 ev2 tf2 ph2).historyEntry
      = some { original_path := pyReplaceSlash p,
               final_status := "DUPLICATE_SUPPRESSED",
               signature := sig,
               file_name := pyBasename p,
               event := ev2.getD "created" } := by
  have hstate := capture_success_state st p sig t1 ev1 tf1 ph1 hsucc
  have hsig : (purgeTable t2
      ((vault_capture_file st p (some sig) false t1 true ev1 tf1 ph1).state.recentSignatures)).any
        (fun e => e.1 == sig) = true := by
    rw [hstate.1]
    exact purge_keeps_fresh t2 t1 _ sig (by unfold SIGNATURE_TTL; linarith)
  have := capture_duplicate_branch
    ((vault_capture_file st p (some sig) false t1 true ev1 tf1 ph1).state)
    p sig t2 mo2 ev2 tf2 ph2 hsig
  exact this

/-- Witness for `vault_capture_dedup_law` at a concrete input. -/
theorem vault_capture_dedup_law_witness :
    (vault_capture_file
        (vault_capture_file ⟨[], [], []⟩ "c:/dl/a.exe" (some "s1") false 0 true none "t" "h").state
        "c:/dl/a.exe" (some "s1") false 3 true none "t2" "h2").result
      = .duplicateSuppressed "s1" :=
  (vault_capture_dedup_law ⟨[], [], []⟩ "c:/dl/a.exe" "s1" 0 3 none none "t" "h" "t2" "h2" true
    (by decide) (by norm_num) (by norm_num)).1

/-- Claim C2, counterexample to the unconditional claim: if an installer is
active over `p` at the time of the second call, the second capture raises via
the installation-mode short-circuit *before* the dedup check: it queues the
file for in-place scanning instead of writing a `DUPLICATE_SUPPRESSED`
history entry, even though the first capture succeeded, the fingerprints are
equal, and the two calls are 1 s apart. -/
theorem vault_capture_dedup_installation_counterexample :
    (vault_capture_file ⟨[], [], []⟩ "c:/apps/payload.exe" (some "s1") false 0 true none
        "t" "h").result.isVaulted = true ∧
    ((1 : ℚ) - 0 < 15) ∧
    (vault_capture_file
        (vault_capture_file ⟨[], [], []⟩ "c:/apps/payload.exe" (some "s1") false 0 true none
          "t" "h").state
        "c:/apps/payload.exe" (some "s1") true 1 true none "t2" "h2").result
      = .installationModeQueued ∧
    (vault_capture_file
        (vault_capture_file ⟨[], [], []⟩ "c:/apps/payload.exe" (some "s1") false 0 true none
          "t" "h").state
        "c:/apps/payload.exe" (some "s1") true 1 true none "t2" "h2").historyEntry = none := by
  refine ⟨by decide, by norm_num, ?_, ?_⟩ <;>
    · unfold vault_capture_file
      decide

/-- Does a string contain an ASCII uppercase letter? -/
def hasUpperChar (s : String) : Bool :=
  s.data.any (fun c => decide (65 ≤ c.toNat ∧ c.toNat ≤ 90))

theorem ofNat_toNat_le (n : Nat) (h : n ≤ 122) : (Char.ofNat n).toNat = n := by
  have hv : n.isValidChar := Or.inl (by omega)
  simp [Char.ofNat, hv, Char.toNat, Char.ofNatAux, UInt32.toNat, BitVec.toNat_ofNatLt]

theorem toLower_ne (c : Char) (h1 : 65 ≤ c.toNat) (h2 : c.toNat ≤ 90) :
    Char.toLower c ≠ c := by
  intro heq
  have h3 : (Char.toLower c).toNat = c.toNat := by rw [heq]
  rw [Char.toLower] at h3
  simp only [ge_iff_le, h1, h2, and_self, if_pos] at h3
  rw [ofNat_toNat_le (c.toNat + 32) (by omega)] at h3
  omega

theorem map_ne_self_of_mem {α : Type} (f : α → α) (c : α) (hf : f c ≠ c) :
    ∀ l : List α, c ∈ l → l.map f ≠ l := by
  intro l
  induction l with
  | nil => intro hc; cases hc
  | cons x xs ih =>
      intro hc he
      rw [List.map_cons, List.cons.injEq] at he
      rcases List.mem_cons.mp hc with rfl | hmem
      · exact hf he.1
      · exact ih hmem he.2

theorem hasUpper_replSlash (p : String) (h : hasUpperChar p = true) :
    hasUpperChar (pyReplaceSlash p) = true := by
  unfold hasUpperChar at h ⊢
  rw [List.any_eq_true] at h ⊢
  obtain ⟨c, hc, hup⟩ := h
  rw [decide_eq_true_iff] at hup
  refine ⟨c, ?_, by rw [decide_eq_true_iff]; exact hup⟩
  show c ∈ (pyReplaceSlash p).data
  unfold pyReplaceSlash
  have hcs : (if c = '\\' then '/' else c) = c := by
    have : c ≠ '\\' := by
      intro heq
      subst heq
      exact absurd hup (by decide)
    simp [this]
  rw [show ((⟨p.data.map (fun c => if c = '\\' then '/' else c)⟩ : String)).data
      = p.data.map (fun c => if c = '\\' then '/' else c) from rfl]
  exact hcs ▸ List.mem_map_of_mem _ hc

theorem pyLower_ne_of_hasUpper (s : String) (h : hasUpperChar s = true) :
    pyLower s ≠ s := by
  unfold hasUpperChar at h
  rw [List.any_eq_true] at h
  obtain ⟨c, hc, hup⟩ := h
  rw [decide_eq_true_iff] at hup
  intro heq
  have hdata : s.data.map Char.toLower = s.data := by
    have := congrArg String.data heq
    exact this
  exact map_ne_self_of_mem Char.toLower c (toLower_ne c hup.1 hup.2) s.data hc hdata

/-- When neither dedup lookup hits, the capture moves the file into the vault. -/
theorem capture_fresh_branch (st : CaptureState) (p sig : String) (now : ℚ)
    (ev : Option String) (tf ph : String)
    (hsig : (purgeTable now st.recentSignatures).any (fun e => e.1 == sig) = false)
    (hpath : (purgeTable now st.recentCaptures).any
        (fun e => e.1 == pyLower (pyReplaceSlash p)) = false) :
    (vault_capture_file st p (some sig) false now true ev tf ph).result.isVaulted = true ∧
    (vault_capture_file st p (some sig) false now true ev tf ph).moved = true := by
  unfold vault_capture_file
  simp [hsig, hpath, CaptureResult.isVaulted]

/-- Claim C8: a successful capture records the case-preserved path as the
recent-paths key while the duplicate check looks up the lowercased form, so
for any path containing an uppercase letter a repeat capture inside the 15 s
TTL with a different fingerprint is *not* suppressed by the path table: it is
vaulted again.  (Signature-based suppression, `vault_capture_dedup_law`, is
the only suppression that can fire for such paths.) -/
theorem capture_path_dedup_case_mismatch (p sig1 sig2 : String) (t1 t2 : ℚ)
    (ev1 ev2 : Option String) (tf1 ph1 tf2 ph2 : String)
    (hup : hasUpperChar p = true) (hsig : sig1 ≠ sig2) (hlt : t2 - t1 < 15) :
    (vault_capture_file ⟨[], [], []⟩ p (some sig1) false t1 true ev1 tf1 ph1).result.isVaulted
        = true ∧
    (vault_capture_file
        (vault_capture_file ⟨[], [], []⟩ p (some sig1) false t1 true ev1 tf1 ph1).state
        p (some sig2) false t2 true ev2 tf2 ph2).result.isVaulted = true ∧
    (vault_capture_file
        (vault_capture_file ⟨[], [], []⟩ p (some sig1) false t1 true ev1 tf1 ph1).state
        p (some sig2) false t2 true ev2 tf2 ph2).moved = true := by
  have hempty : ∀ t : ℚ, purgeTable t ([] : List (String × ℚ)) = [] := fun _ => rfl
  have hfresh1 := capture_fresh_branch ⟨[], [], []⟩ p sig1 t1 ev1 tf1 ph1
    (by rw [hempty]; rfl) (by rw [hempty]; rfl)
  refine ⟨hfresh1.1, ?_⟩
  have hstate := capture_success_state ⟨[], [], []⟩ p sig1 t1 ev1 tf1 ph1 hfresh1.1
  have hsigs : (vault_capture_file ⟨[], [], []⟩ p (some sig1) false t1 true ev1 tf1
      ph1).state.recentSignatures = [(sig1, t1)] := by
    rw [hstate.1]
    rfl
  have hpaths : (vault_capture_file ⟨[], [], []⟩ p (some sig1) false t1 true ev1 tf1
      ph1).state.recentCaptures = [(pyReplaceSlash p, t1)] := by
    rw [hstate.2]
    rfl
  have h15 : t2 - t1 ≤ SIGNATURE_TTL := by unfold SIGNATURE_TTL; linarith
  have hkeep : ∀ k : String, purgeTable t2 [(k, t1)] = [(k, t1)] := by
    intro k
    unfold purgeTable
    simp
    linarith
  apply capture_fresh_branch
  · rw [hsigs, hkeep]
    simp only [List.any_cons, List.any_nil, Bool.or_false]
    exact beq_eq_false_iff_ne.mpr hsig
  · rw [hpaths, hkeep]
    simp only [List.any_cons, List.any_nil, Bool.or_false]
    refine beq_eq_false_iff_ne.mpr ?_
    intro heq
    exact pyLower_ne_of_hasUpper (pyReplaceSlash p) (hasUpper_replSlash p hup) heq.symm

/-- Witness for `capture_path_dedup_case_mismatch` at a concrete input: the
uppercase path `c:/DL/Setup.EXE` is captured twice 3 s apart with distinct
fingerprints and both captures vault the file. -/
theorem capture_path_dedup_case_mismatch_witness :
    (vault_capture_file
        (vault_capture_file ⟨[], [], []⟩ "c:/DL/Setup.EXE" (some "s1") false 0 true none
          "t" "h").state
        "c:/DL/Setup.EXE" (some "s2") false 3 true none "t2" "h2").moved = true :=
  (capture_path_dedup_case_mismatch "c:/DL/Setup.EXE" "s1" "s2" 0 3 none none "t" "h" "t2" "h2"
    (by decide) (by decide) (by norm_num)).2.2

/-! ## Exclusion resolver (utils/exclusions.py)

`os.path.abspath` is the identity on the absolute paths we model;
`os.sep` is modelled as `/`.  The internal root set depends on the runtime
base directory and (optionally) the executable directory; the temp roots
and the recycle-bin drives come from the environment and are passed in. -/

def get_internal_exclude_roots (base : String) (exeDir : Option String) : List String :=
  [base,
   base ++ "/assets", base ++ "/assets/yara",
   base ++ "/quarantine", base ++ "/scanvault",
   base ++ "/build", base ++ "/__pycache__",
   base ++ "/data", base ++ "/data/scan_queue",
   base ++ "/.venv", base ++ "/venv", base ++ "/dist",
   base ++ "/.git", base ++ "/.mypy_cache", base ++ "/.pytest_cache",
   base ++ "/VWAR_i", base ++ "/VWAR.spec", base ++ "/.vscode",
   base ++ "/tests", base ++ "/Backup",
   base ++ "/Scanning", base ++ "/RMonitoring",
   base ++ "/activation", base ++ "/utils"] ++
  (match exeDir with
   | some e =>
       [e, e ++ "/assets", e ++ "/assets/yara", e ++ "/vwar_monitor",
        e ++ "/quarantine", e ++ "/scanvault", e ++ "/data", e ++ "/_internal"]
   | none => [])

/-- `is_under_any`: case-insensitive containment (equality with a root, or a
root followed by a separator is an initial segment of the path). -/
def is_under_any (path : String) (roots : List String) : Bool :=
  roots.any (fun r => pyLower path == pyLower r || pyStartsWith (pyLower path) (pyLower r ++ "/"))

def _TEMP_EXTS : List String :=
  [".tmp", ".temp", ".part", ".partial", ".crdownload", ".download",
   ".swp", ".swo", ".bak", ".old", ".log", ".lock", ".cache", ".dmp",
   ".tmp~", ".~tmp"]

def _TEMP_FILES : List String := ["thumbs.db", ".ds_store"]

def _TEMP_PREFIXES : List String := ["~$", "._"]

/-- `is_temp_like_file`: prefix set, known transient names, temp extension
set, or an existing zero-byte file (`sizeOf` is the observed size, `none`
when the file does not exist). -/
def is_temp_like_file (sizeOf : Option Nat) (path : String) : Bool :=
  let name := pyLower (pyBasename path)
  if _TEMP_PREFIXES.any (fun pre => pyStartsWith name pre) then true
  else if _TEMP_FILES.any (fun f => name == f) then true
  else if _TEMP_EXTS.any (fun e => pySplitextExt name == e) then true
  else
    match sizeOf with
    | some 0 => true
    | _ => false

/-- `is_excluded_path(path) -> (excluded, reason)` with reasons evaluated in
order: INTERNAL, RECYCLE_BIN (any path segment equal to `$recycle.bin`),
TEMP_ROOT, TEMP_FILE, NONE. -/
def is_excluded_path (internalRoots tempRoots : List String) (sizeOf : Option Nat)
    (path : String) : Bool × String :=
  if is_under_any path internalRoots then (true, "INTERNAL")
  else
    let low := pyLower path
    if pySubstr "$recycle.bin" low &&
        (splitOnChar '/' low.data).any (fun seg => seg == "$recycle.bin".data) then
      (true, "RECYCLE_BIN")
    else if is_under_any path tempRoots then (true, "TEMP_ROOT")
    else if is_temp_like_file sizeOf path then (true, "TEMP_FILE")
    else (false, "NONE")

/-! ## Scanner core (Scanning/scanner_core.py) -/

/-- The allowlist of project subpaths that are still scanned
(`_INTERNAL_ALLOW_SUBPATHS`), built from the lowercased normalized base
directory. -/
def _INTERNAL_ALLOW_SUBPATHS (baseDir : String) : List String :=
  [pyLower (pyReplaceSlash baseDir) ++ "/scanvault/"]

structure ScanResult where
  matched : Bool
  rule : Option String
  status : String
deriving DecidableEq, Repr

/-- `force_scan_vaulted(file_path)`: skips only non-INTERNAL exclusions and
otherwise scans.  `matchOutcome` abstracts `rules.match` (`.error` is a
`yara.Error`, `.ok (some r)` a match on rule `r`, `.ok none` clean). -/
def force_scan_vaulted (rulesLoaded isFile : Bool) (excl : Bool × String)
    (matchOutcome : Except Unit (Option String)) : ScanResult :=
  if !rulesLoaded then { matched := false, rule := none, status := "NO_RULES" }
  else if !isFile then { matched := false, rule := none, status := "SKIPPED_NON_FILE" }
  else if excl.1 && !(excl.2 == "INTERNAL") then
    { matched := false, rule := none,
      status := if pyStartsWith excl.2 "TEMP" then "SKIPPED_TEMP" else "SKIPPED_" ++ excl.2 }
  else
    match matchOutcome with
    | .error _ => { matched := false, rule := none, status := "YARA_ERROR" }
    | .ok (some r) => { matched := true, rule := some r, status := "MATCH" }
    | .ok none => { matched := false, rule := none, status := "CLEAN" }

/-! List-prefix helpers for the vault-root containment argument. -/

theorem prefixOf_exists {α : Type} [BEq α] [LawfulBEq α] :
    ∀ a b : List α, a.isPrefixOf b = true → ∃ t, b = a ++ t := by
  intro a
  induction a with
  | nil => exact fun b _ => ⟨b, rfl⟩
  | cons x xs ih =>
      intro b h
      cases b with
      | nil => simp [List.isPrefixOf] at h
      | cons y ys =>
          simp only [List.isPrefixOf, Bool.and_eq_true, beq_iff_eq] at h
          obtain ⟨t, ht⟩ := ih ys h.2
          exact ⟨t, by rw [h.1, ht]; rfl⟩

theorem append_prefixOf {α : Type} [BEq α] [LawfulBEq α] :
    ∀ a t : List α, a.isPrefixOf (a ++ t) = true := by
  intro a t
  induction a with
  | nil => simp [List.isPrefixOf]
  | cons x xs ih => simp [List.isPrefixOf, ih]

theorem prefixOf_trans {α : Type} [BEq α] [LawfulBEq α] (a b c : List α)
    (h1 : a.isPrefixOf b = true) (h2 : b.isPrefixOf c = true) :
    a.isPrefixOf c = true := by
  obtain ⟨t1, rfl⟩ := prefixOf_exists a b h1
  obtain ⟨t2, rfl⟩ := prefixOf_exists (a ++ t1) c h2
  rw [List.append_assoc]
  exact append_prefixOf a (t1 ++ t2)

/-- Claim C3, counterexample: a file under the vault root (`<base>/scanvault`)
is classified `(True, INTERNAL)` by `is_excluded_path`, not `(False, NONE)`:
the resolver itself has no vault-root override allowlist. -/
theorem is_excluded_vault_root_counterexample :
    is_excluded_path (get_internal_exclude_roots "c:/vwar" (some "c:/vwar")) []
        (some 10) "c:/vwar/scanvault/evil.exe" = (true, "INTERNAL") ∧
    is_excluded_path (get_internal_exclude_roots "c:/vwar" (some "c:/vwar")) []
        (some 10) "c:/vwar/scanvault/evil.exe" ≠ (false, "NONE") := by
  constructor
  · decide
  · decide

/-- Claim C3, amended: every path under the vault root is classified
`(True, INTERNAL)` by `is_excluded_path`; the override that lets vaulted
files be re-scanned lives in the caller — `force_scan_vaulted` deliberately
ignores the INTERNAL reason and scans anyway, behaving exactly as on an
unexcluded path. -/
theorem vault_root_internal_yet_rescanned (base : String) (exeDir : Option String)
    (tempRoots : List String) (sizeOf : Option Nat) (p : String)
    (hsub : pyStartsWith (pyLower p) (pyLower base ++ "/scanvault/") = true) :
    is_excluded_path (get_internal_exclude_roots base exeDir) tempRoots sizeOf p
        = (true, "INTERNAL") ∧
    (∀ r : String, force_scan_vaulted true true
        (is_excluded_path (get_internal_exclude_roots base exeDir) tempRoots sizeOf p)
        (.ok (some r)) = { matched := true, rule := some r, status := "MATCH" }) ∧
    force_scan_vaulted true true
        (is_excluded_path (get_internal_exclude_roots base exeDir) tempRoots sizeOf p)
        (.ok none) = { matched := false, rule := none, status := "CLEAN" } := by
  have hpre : ((pyLower base ++ "/").data).isPrefixOf ((pyLower p).data) = true := by
    unfold pyStartsWith at hsub
    refine prefixOf_trans _ ((pyLower base ++ "/scanvault/").data) _ ?_ hsub
    have : pyLower base ++ "/scanvault/" = (pyLower base ++ "/") ++ "scanvault/" := by
      rw [String.append_assoc]
      rfl
    rw [this, String.data_append]
    exact append_prefixOf _ _
  have hunder : is_under_any p (get_internal_exclude_roots base exeDir) = true := by
    unfold is_under_any
    rw [List.any_eq_true]
    refine ⟨base, ?_, ?_⟩
    · unfold get_internal_exclude_roots
      simp
    · rw [Bool.or_eq_true]
      right
      unfold pyStartsWith
      exact hpre
  have hexcl : is_excluded_path (get_internal_exclude_roots base exeDir) tempRoots sizeOf p
      = (true, "INTERNAL") := by
    unfold is_excluded_path
    rw [hunder]
    rfl
  refine ⟨hexcl, ?_, ?_⟩
  · intro r
    rw [hexcl]
    rfl
  · rw [hexcl]
    rfl

/-- Witness for `vault_root_internal_yet_rescanned` at a concrete input. -/
theorem vault_root_internal_yet_rescanned_witness :
    is_excluded_path (get_internal_exclude_roots "c:/app" none) ["c:/windows/temp"]
        (some 10) "c:/app/scanvault/sample.exe__20250101__ab.vaulted" = (true, "INTERNAL") :=
  (vault_root_internal_yet_rescanned "c:/app" none ["c:/windows/temp"] (some 10)
    "c:/app/scanvault/sample.exe__20250101__ab.vaulted" (by decide)).1

/-! ## Vault processor, `_scan_and_route_file` (Scanning/vault_processor.py)

A single routing step for one vaulted file.  All environment outcomes are
inputs: the metadata read, the first scan result, the current restoration
count inside the sliding 60 s window, the second (re-check) scan result, and
whether the quarantine move and the live sidecar exist/succeed. -/

structure HistoryUpdate where
  final_status : String
  recheck_before_restore : Option Bool
deriving DecidableEq, Repr

inductive RouteAction
  | metadataError            -- unreadable metadata or missing original_path
  | quarantinedPrimary (rule : String)
  | primaryQuarantineFailed  -- left in vault for manual review
  | requeuedRateLimit
  | quarantinedOnRecheck (rule : String)
  | recheckQuarantineFailed
  | restored
  | leftInVault              -- scan error statuses
deriving DecidableEq, Repr

structure RouteOutcome where
  action : RouteAction
  movedBack : Bool                 -- `shutil.move(vaulted_path, original_path)` ran
  history : Option HistoryUpdate
deriving DecidableEq, Repr

/-- The set of statuses the source treats as restorable. -/
def restorableStatuses : List String :=
  ["CLEAN", "SKIPPED_INTERNAL", "SKIPPED_TEMP", "SKIPPED_TEMP_ROOT", "SKIPPED_TEMP_FILE"]

/-- `_scan_and_route_file`, routing portion.  `firstScan` is the
`force_scan_vaulted` result for the vaulted file; `recheck` is the second
`force_scan_vaulted` call made immediately before the move back. -/
def scan_and_route_file (metaOk : Bool) (firstScan : ScanResult)
    (restoreCountInWindow : Nat) (recheck : ScanResult)
    (quarantineOk : Bool) (metaExists : Bool) : RouteOutcome :=
  if !metaOk then
    { action := .metadataError, movedBack := false, history := none }
  else if firstScan.matched then
    if quarantineOk then
      { action := .quarantinedPrimary ((firstScan.rule).getD ""), movedBack := false,
        history := if metaExists then
            some { final_status := "QUARANTINED", recheck_before_restore := none }
          else none }
    else
      { action := .primaryQuarantineFailed, movedBack := false, history := none }
  else if restorableStatuses.any (fun s => s == firstScan.status) then
    if restoreCountInWindow ≥ MAX_RESTORES_PER_MINUTE then
      { action := .requeuedRateLimit, movedBack := false, history := none }
    else if recheck.matched then
      if quarantineOk then
        { action := .quarantinedOnRecheck ((recheck.rule).getD ""), movedBack := false,
          history := if metaExists then
              some { final_status := "QUARANTINED", recheck_before_restore := some true }
            else none }
      else
        { action := .recheckQuarantineFailed, movedBack := false, history := none }
    else
      { action := .restored, movedBack := true,
        history := if metaExists then
            some { final_status := "RESTORED", recheck_before_restore := some false }
          else none }
  else
    { action := .leftInVault, movedBack := false, history := none }

/-- Claim C4: in the restore branch, whenever the pre-restore re-scan
reports a match the file is never moved back (the restore step is
unreachable), and on the normal path (quarantine succeeds, live sidecar
present) it is routed to quarantine with `recheck_before_restore: true` and
`final_status: QUARANTINED` in its history entry. -/
theorem recheck_before_restore_safety (metaOk : Bool) (firstScan : ScanResult)
    (restoreCount : Nat) (recheck : ScanResult) (quarantineOk metaExists : Bool)
    (hmatch : recheck.matched = true) :
    (scan_and_route_file metaOk firstScan restoreCount recheck quarantineOk
        metaExists).movedBack = false ∧
    (scan_and_route_file metaOk firstScan restoreCount recheck quarantineOk
        metaExists).action ≠ .restored ∧
    (metaOk = true → firstScan.matched = false →
      restorableStatuses.any (fun s => s == firstScan.status) = true →
      restoreCount < MAX_RESTORES_PER_MINUTE → quarantineOk = true → metaExists = true →
      (scan_and_route_file metaOk firstScan restoreCount recheck quarantineOk
          metaExists).action = .quarantinedOnRecheck ((recheck.rule).getD "") ∧
      (scan_and_route_file metaOk firstScan restoreCount recheck quarantineOk
          metaExists).history
        = some { final_status := "QUARANTINED", recheck_before_restore := some true }) := by
  unfold scan_and_route_file
  cases metaOk with
  | false => exact ⟨rfl, by simp, by intro h; cases h⟩
  | true =>
      simp only [Bool.not_true, Bool.false_eq_true, if_false]
      cases hfm : firstScan.matched with
      | true =>
          cases quarantineOk <;>
            exact ⟨rfl, by simp, by intro _ h; simp at h⟩
      | false =>
          simp only [if_false]
          cases hrs : restorableStatuses.any (fun s => s == firstScan.status) with
          | false =>
              exact ⟨rfl, by simp, by intro _ _ h; simp at h⟩
          | true =>
              simp only [if_true]
              by_cases hrl : restoreCount ≥ MAX_RESTORES_PER_MINUTE
              · rw [if_pos hrl]
                exact ⟨rfl, by simp, fun _ _ _ hlt _ _ => absurd hrl (by omega)⟩
              · rw [if_neg hrl, hmatch]
                cases quarantineOk with
                | false =>
                    exact ⟨rfl, by simp, by intro _ _ _ _ h; cases h⟩
                | true =>
                    simp only [if_true]
                    cases metaExists with
                    | false =>
                        exact ⟨rfl, by simp, by intro _ _ _ _ _ h; cases h⟩
                    | true => exact ⟨rfl, by simp, fun _ _ _ _ _ _ => ⟨rfl, rfl⟩⟩

/-- Witness for `recheck_before_restore_safety`: a clean first scan whose
re-check matches rule `r` is quarantined with the recheck flag and not
restored. -/
theorem recheck_before_restore_safety_witness :
    (scan_and_route_file true ⟨false, none, "CLEAN"⟩ 0 ⟨true, some "r", "MATCH"⟩ true
        true).movedBack = false ∧
    (scan_and_route_file true ⟨false, none, "CLEAN"⟩ 0 ⟨true, some "r", "MATCH"⟩ true
        true).history
      = some { final_status := "QUARANTINED", recheck_before_restore := some true } := by
  have h := recheck_before_restore_safety true ⟨false, none, "CLEAN"⟩ 0
    ⟨true, some "r", "MATCH"⟩ true true rfl
  exact ⟨h.1, (h.2.2 rfl rfl (by decide) (by decide) rfl rfl).2⟩

/-! ## Persistent queue (utils/scanvault_queue.py) -/

structure QueueItem where
  original_path : String
  path_normalized : String
  event_type : String
  queued_at : String
  status : String
deriving DecidableEq, Repr

/-- `add_to_queue(file_path, event_type)`: dedup on the normalized path,
append otherwise.  Returns the rewritten queue and the `True`/`False`
result.  (There is no cap check anywhere in this function.) -/
def add_to_queue (queue : List QueueItem) (filePath : String) (eventType : String)
    (queuedAt : String) : List QueueItem × Bool :=
  let normalized := pyLower (pyReplaceSlash filePath)
  if queue.any (fun it => it.path_normalized == normalized) then (queue, false)
  else
    (queue ++ [{ original_path := filePath, path_normalized := normalized,
                 event_type := eventType, queued_at := queuedAt, status := "pending" }],
     true)

/-- Claim C6 (bug exhibit): `add_to_queue` appends unconditionally whenever
the normalized path is fresh — there is no `MAX_QUEUE_SIZE` comparison — so
a queue already holding `MAX_QUEUE_SIZE` entries grows to
`MAX_QUEUE_SIZE + 1` on the next fresh insertion, violating the claimed
bound. -/
theorem add_to_queue_ignores_cap (queue : List QueueItem) (filePath eventType queuedAt : String)
    (hfresh : queue.all (fun it => !(it.path_normalized == pyLower (pyReplaceSlash filePath)))
        = true)
    (hfull : MAX_QUEUE_SIZE ≤ queue.length) :
    (add_to_queue queue filePath eventType queuedAt).1.length = queue.length + 1 ∧
    MAX_QUEUE_SIZE < (add_to_queue queue filePath eventType queuedAt).1.length := by
  have hany : queue.any (fun it => it.path_normalized == pyLower (pyReplaceSlash filePath))
      = false := by
    rw [Bool.eq_false_iff]
    intro hsome
    rw [List.any_eq_true] at hsome
    obtain ⟨it, hin, hbeq⟩ := hsome
    rw [List.all_eq_true] at hfresh
    have := hfresh it hin
    rw [hbeq] at this
    cases this
  have hlen : (add_to_queue queue filePath eventType queuedAt).1.length
      = queue.length + 1 := by
    unfold add_to_queue
    simp only [hany, Bool.false_eq_true, if_false]
    simp
  exact ⟨hlen, by omega⟩

/-- Witness for `add_to_queue_ignores_cap`: a queue state with
`MAX_QUEUE_SIZE` entries accepts one more. -/
theorem add_to_queue_ignores_cap_witness :
    MAX_QUEUE_SIZE <
      (add_to_queue
        (List.replicate 500 ⟨"c:/a", "c:/a", "created", "t", "pending"⟩)
        "c:/b" "created" "t2").1.length :=
  (add_to_queue_ignores_cap
    (List.replicate 500 ⟨"c:/a", "c:/a", "created", "t", "pending"⟩)
    "c:/b" "created" "t2"
    (by
      rw [List.all_eq_true]
      intro it hit
      rw [List.mem_replicate] at hit
      rw [hit.2]
      decide)
    (by rw [List.length_replicate]; exact Nat.le_refl 500)).2

/-! ## License validator (activation/license_utils.py)

One `_validate` tick.  The online/offline validation result (or the
exception path, which only forces `is_valid = False`) is an input; the
calendar date of the tick is a `Nat` day number.  The expiry-warning block
runs last: it fires only when the tick left the license valid with
`days_until_expiry ≤ LICENSE_WARNING_DAYS` and `_last_warning_date` is not
already today's date, and it records today's date before invoking the
callback. -/

structure ValidatorState where
  isValid : Bool
  daysUntilExpiry : Option Int
  lastWarningDate : Option Nat
deriving DecidableEq, Repr

inductive ValidationOutcome
  | ok (isValid : Bool) (days : Option Int)  -- fields set by _validate_online/_validate_offline
  | exn                                      -- exception inside the try: is_valid := False
deriving DecidableEq, Repr

/-- The guard of the 7-day warning block. -/
def warningFires (st : ValidatorState) (valid : Bool) (days : Option Int)
    (today : Nat) : Bool :=
  valid &&
    (match days with
     | some d => decide (d ≤ LICENSE_WARNING_DAYS)
     | none => false) &&
    !(st.lastWarningDate == some today)

/-- One `_validate` tick: returns the new state and whether
`on_expiry_warning` was invoked. -/
def validatorTick (st : ValidatorState) (v : ValidationOutcome) (today : Nat) :
    ValidatorState × Bool :=
  match v with
  | .exn => ({ st with isValid := false }, false)
  | .ok valid days =>
      if warningFires st valid days today then
        ({ isValid := valid, daysUntilExpiry := days, lastWarningDate := some today }, true)
      else
        ({ isValid := valid, daysUntilExpiry := days,
           lastWarningDate := st.lastWarningDate }, false)

/-- The fired-flags of a run of ticks, each tick given its validation
outcome and its calendar date. -/
def runFired : ValidatorState → List (ValidationOutcome × Nat) → List Bool
  | _, [] => []
  | st, (v, d) :: rest =>
      (validatorTick st v d).2 :: runFired (validatorTick st v d).1 rest

theorem validatorTick_lastWarning_of_not_fired (st : ValidatorState)
    (v : ValidationOutcome) (d : Nat) (h : (validatorTick st v d).2 = false) :
    ((validatorTick st v d).1).lastWarningDate = st.lastWarningDate := by
  cases v with
  | exn => rfl
  | ok valid days =>
      simp only [validatorTick] at h ⊢
      by_cases hw : warningFires st valid days d = true
      · rw [if_pos hw] at h
        cases h
      · rw [if_neg hw]

theorem validatorTick_no_fire_at_lastDate (st : ValidatorState) (v : ValidationOutcome)
    (d : Nat) (h : st.lastWarningDate = some d) :
    (validatorTick st v d).2 = false := by
  cases v with
  | exn => rfl
  | ok valid days =>
      simp only [validatorTick]
      have hw : warningFires st valid days d = false := by
        unfold warningFires
        rw [h]
        simp
      rw [hw]
      simp

theorem validatorTick_fired_shape (st : ValidatorState) (v : ValidationOutcome)
    (today : Nat) (h : (validatorTick st v today).2 = true) :
    ∃ days : Int, v = .ok true (some days) ∧ days ≤ LICENSE_WARNING_DAYS ∧
      ((validatorTick st v today).1).lastWarningDate = some today := by
  cases v with
  | exn => simp [validatorTick] at h
  | ok valid days =>
      simp only [validatorTick] at h ⊢
      by_cases hw : warningFires st valid days today = true
      · have hw2 := hw
        unfold warningFires at hw2
        rw [Bool.and_eq_true, Bool.and_eq_true] at hw2
        obtain ⟨⟨hv, hd⟩, _⟩ := hw2
        cases days with
        | none => simp at hd
        | some d =>
            rw [decide_eq_true_iff] at hd
            subst hv
            exact ⟨d, rfl, hd, by rw [if_pos hw]⟩
      · rw [if_neg hw] at h
        cases h

theorem runFired_length (st : ValidatorState) (ticks : List (ValidationOutcome × Nat)) :
    (runFired st ticks).length = ticks.length := by
  induction ticks generalizing st with
  | nil => rfl
  | cons x rest ih =>
      obtain ⟨v, d⟩ := x
      simp [runFired, ih]

/-- Once `_last_warning_date` is today's date `d`, no later tick dated `d`
fires again (dates never decrease). -/
theorem run_no_refire_at_date (d : Nat) :
    ∀ (ticks : List (ValidationOutcome × Nat)) (st : ValidatorState),
      st.lastWarningDate = some d →
      (∀ x ∈ ticks, d ≤ x.2) →
      List.Pairwise (fun a b => a.2 ≤ b.2) ticks →
      ∀ j, j < ticks.length → (ticks.getD j (.exn, 0)).2 = d →
        (runFired st ticks).getD j false = false := by
  intro ticks
  induction ticks with
  | nil =>
      intro st _ _ _ j hj
      simp at hj
  | cons x rest ih =>
      intro st hlast hge hpw j hj hdate
      obtain ⟨v, e⟩ := x
      rw [List.pairwise_cons] at hpw
      cases j with
      | zero =>
          simp only [List.getD, List.get?] at hdate
          show ((validatorTick st v e).2 :: runFired (validatorTick st v e).1 rest).getD 0 false
              = false
          simp only [List.getD, List.get?, Option.getD_some]
          have : e = d := hdate
          subst this
          exact validatorTick_no_fire_at_lastDate st v e hlast
      | succ j' =>
          have hj' : j' < rest.length := by simpa using hj
          have hdate' : (rest.getD j' (.exn, 0)).2 = d := by
            simpa [List.getD] using hdate
          show ((validatorTick st v e).2 :: runFired (validatorTick st v e).1 rest).getD
              (j' + 1) false = false
          simp only [List.getD_cons_succ]
          cases hf : (validatorTick st v e).2 with
          | false =>
              have hlast1 : ((validatorTick st v e).1).lastWarningDate = some d := by
                rw [validatorTick_lastWarning_of_not_fired st v e hf]
                exact hlast
              exact ih (validatorTick st v e).1 hlast1
                (fun x hx => hge x (List.mem_cons_of_mem _ hx)) hpw.2 j' hj' hdate'
          | true =>
              -- the head fired at date e; since the head cannot fire on date d
              -- itself, e ≠ d — but a later tick is dated d ≥ e, forcing e = d.
              exfalso
              have hed : e ≠ d := by
                intro he
                subst he
                rw [validatorTick_no_fire_at_lastDate st v e hlast] at hf
                cases hf
              have hmem : rest.getD j' (.exn, 0) ∈ rest := by
                rw [List.getD_eq_get _ _ hj']
                exact List.get_mem rest _ _
              have h1 : e ≤ (rest.getD j' (.exn, 0)).2 := hpw.1 _ hmem
              have h2 : d ≤ e := hge (v, e) (List.mem_cons_self _ _)
              omega

/-- Fired ticks have valid licenses within the warning window. -/
theorem run_fired_shape :
    ∀ (ticks : List (ValidationOutcome × Nat)) (st : ValidatorState) (k : Nat),
      k < ticks.length → (runFired st ticks).getD k false = true →
      ∃ days : Int, (ticks.getD k (.exn, 0)).1 = .ok true (some days) ∧
        days ≤ LICENSE_WARNING_DAYS := by
  intro ticks
  induction ticks with
  | nil =>
      intro st k hk
      simp at hk
  | cons x rest ih =>
      intro st k hk hf
      obtain ⟨v, e⟩ := x
      cases k with
      | zero =>
          simp only [runFired, List.getD_cons_zero] at hf
          obtain ⟨days, hv, hd, _⟩ := validatorTick_fired_shape st v e hf
          exact ⟨days, by simpa [List.getD] using hv, hd⟩
      | succ k' =>
          have hk' : k' < rest.length := by simpa using hk
          simp only [runFired, List.getD_cons_succ] at hf
          have := ih (validatorTick st v e).1 k' hk' hf
          simpa [List.getD] using this

/-- Same-date ticks never both fire. -/
theorem run_warning_once_per_date :
    ∀ (ticks : List (ValidationOutcome × Nat)) (st : ValidatorState),
      List.Pairwise (fun a b => a.2 ≤ b.2) ticks →
      ∀ i j, i < j → j < ticks.length →
        (ticks.getD i (.exn, 0)).2 = (ticks.getD j (.exn, 0)).2 →
        ¬((runFired st ticks).getD i false = true ∧
          (runFired st ticks).getD j false = true) := by
  intro ticks
  induction ticks with
  | nil =>
      intro st _ i j _ hj
      simp at hj
  | cons x rest ih =>
      intro st hpw i j hij hj hdate hboth
      obtain ⟨v, e⟩ := x
      rw [List.pairwise_cons] at hpw
      cases i with
      | zero =>
          obtain ⟨j', rfl⟩ : ∃ j', j = j' + 1 := ⟨j - 1, by omega⟩
          have hj' : j' < rest.length := by simpa using hj
          have hf0 : (validatorTick st v e).2 = true := by
            simpa [runFired, List.getD] using hboth.1
          obtain ⟨days, hv, hd, hlast1⟩ := validatorTick_fired_shape st v e hf0
          have hdate' : (rest.getD j' (.exn, 0)).2 = e := by
            have := hdate
            simp only [List.getD_cons_zero, List.getD_cons_succ] at this
            exact this.symm
          have hnofire := run_no_refire_at_date e rest (validatorTick st v e).1 hlast1
            (fun x hx => hpw.1 x hx) hpw.2 j' hj' hdate'
          have hfj : (runFired st ((v, e) :: rest)).getD (j' + 1) false = true := hboth.2
          simp only [runFired, List.getD_cons_succ] at hfj
          rw [hnofire] at hfj
          cases hfj
      | succ i' =>
          obtain ⟨j', rfl⟩ : ∃ j', j = j' + 1 := ⟨j - 1, by omega⟩
          have hij' : i' < j' := by omega
          have hj' : j' < rest.length := by simpa using hj
          have hdate' : (rest.getD i' (.exn, 0)).2 = (rest.getD j' (.exn, 0)).2 := by
            simpa [List.getD_cons_succ] using hdate
          refine ih (validatorTick st v e).1 hpw.2 i' j' hij' hj' hdate' ?_
          constructor
          · have := hboth.1
            simpa [runFired, List.getD_cons_succ] using this
          · have := hboth.2
            simpa [runFired, List.getD_cons_succ] using this

/-- Claim C7: over any tick sequence with non-decreasing calendar dates, the
`on_expiry_warning` callback fires at most once per calendar day — two ticks
on the same date never both fire — and a tick fires only when the validation
left the license valid with `days_until_expiry ≤ LICENSE_WARNING_DAYS`. -/
theorem license_expiry_warning_debounce (st : ValidatorState)
    (ticks : List (ValidationOutcome × Nat))
    (hmono : List.Pairwise (fun a b => a.2 ≤ b.2) ticks) :
    (∀ i j, i < j → j < ticks.length →
      (ticks.getD i (.exn, 0)).2 = (ticks.getD j (.exn, 0)).2 →
      ¬((runFired st ticks).getD i false = true ∧
        (runFired st ticks).getD j false = true)) ∧
    (∀ k, k < ticks.length → (runFired st ticks).getD k false = true →
      ∃ days : Int, (ticks.getD k (.exn, 0)).1 = .ok true (some days) ∧
        days ≤ LICENSE_WARNING_DAYS) :=
  ⟨run_warning_once_per_date ticks st hmono, fun k => run_fired_shape ticks st k⟩

/-- Witness for `license_expiry_warning_debounce`: two valid ticks on day 100
with 3 then 2 days left — the first fires, the second does not. -/
theorem license_expiry_warning_debounce_witness :
    ¬((runFired ⟨true, none, none⟩
        [(.ok true (some 3), 100), (.ok true (some 2), 100)]).getD 0 false = true ∧
      (runFired ⟨true, none, none⟩
        [(.ok true (some 3), 100), (.ok true (some 2), 100)]).getD 1 false = true) :=
  (license_expiry_warning_debounce ⟨true, none, none⟩
      [(.ok true (some 3), 100), (.ok true (some 2), 100)]
      (by simp)).1 0 1 (by omega) (by simp) (by simp)

/-! ## Installation detector (utils/installation_detector.py)

`_check_running_installers` consumes one `psutil.process_iter` snapshot.
The active-installer registry is keyed by pid; the monitored-folder set
stores lowercased directories.  Only pids are ever removed — folders are
never pruned. -/

def INSTALLER_PROCESS_NAMES : List String :=
  ["msiexec.exe", "setup.exe", "install.exe", "installer.exe", "uninstaller.exe",
   "update.exe", "updater.exe", "winget.exe", "choco.exe", "scoop.exe",
   "steam.exe", "epicgameslauncher.exe", "origin.exe", "battle.net.exe",
   "wusa.exe", "dism.exe", "pkgmgr.exe"]

def INSTALLER_EXTENSIONS : List String :=
  [".exe", ".msi", ".bat", ".cmd", ".ps1", ".vbs", ".wsf", ".reg", ".scr",
   ".jar", ".app", ".deb", ".rpm", ".pkg", ".dmg", ".run", ".sh"]

def INSTALLER_KEYWORDS : List String :=
  ["install", "setup", "update", "uninstall", "upgrade", "patch"]

structure ProcInfo where
  pid : Nat
  name : String            -- proc.info['name'] (empty when None)
  exe : Option String      -- proc.info['exe']
deriving DecidableEq, Repr

/-- The installer classifier: extension + keyword in the basename first,
then the curated process-name list. -/
def isInstallerProc (p : ProcInfo) : Bool :=
  let byExt :=
    match p.exe with
    | some exe =>
        let ext := pyLower (pySplitextExt (pyBasename exe))
        let baseName := pyLower (pyBasename exe)
        (INSTALLER_EXTENSIONS.any (fun e => ext == e)) &&
          (INSTALLER_KEYWORDS.any (fun w => pySubstr w baseName))
    | none => false
  byExt || INSTALLER_PROCESS_NAMES.any (fun n => pyLower p.name == n)

structure DetectorState where
  activeInstallers : List (Nat × ProcInfo)
  monitoredFolders : List String
deriving DecidableEq, Repr

/-- Add a folder (lowercased) if not already monitored. -/
def addMonitoredFolder (folders : List String) (f : String) : List String :=
  if folders.any (fun g => g == pyLower f) then folders else folders ++ [pyLower f]

/-- Registration of one observed installer process: new pids are added with
their installer directory, its parent, and the conditional
WindowsApps/Program Files extras (which duplicate entries already in the
list and are therefore set-no-ops, exactly as in the source). -/
def registerInstaller (st : DetectorState) (p : ProcInfo) : DetectorState :=
  if isInstallerProc p then
    if st.activeInstallers.any (fun e => e.1 == p.pid) then st
    else
      let folders :=
        match p.exe with
        | none => st.monitoredFolders
        | some exe =>
            let installerDir := pyDirname exe
            let parentDir := pyDirname installerDir
            let toMonitor := [installerDir, parentDir] ++
              (if pySubstr "windowsapps" (pyLower installerDir) then [installerDir]
               else if pySubstr "program files" (pyLower installerDir) then [parentDir]
               else [])
            toMonitor.foldl addMonitoredFolder st.monitoredFolders
      { activeInstallers := st.activeInstallers ++ [(p.pid, p)],
        monitoredFolders := folders }
  else st

/-- `_check_running_installers` over one process snapshot: register every
installer process, then drop completed pids from the registry.  The
monitored-folder set is never shrunk. -/
def check_running_installers (st : DetectorState) (procs : List ProcInfo) : DetectorState :=
  let currentPids := (procs.filter isInstallerProc).map ProcInfo.pid
  let st1 := procs.foldl registerInstaller st
  { st1 with activeInstallers :=
      st1.activeInstallers.filter (fun e => currentPids.any (fun q => q == e.1)) }

def is_installation_active (st : DetectorState) : Bool :=
  decide (0 < st.activeInstallers.length)

/-- `is_file_being_installed(path)`: false when no installer is active;
otherwise a lowercase prefix match against the monitored folders. -/
def is_file_being_installed (st : DetectorState) (filePath : String) : Bool :=
  if !is_installation_active st then false
  else st.monitoredFolders.any (fun f => pyStartsWith (pyLower filePath) f)

theorem addMonitoredFolder_sub (folders : List String) (f g : String)
    (h : g ∈ folders) : g ∈ addMonitoredFolder folders f := by
  unfold addMonitoredFolder
  split
  · exact h
  · exact List.mem_append_left _ h

theorem foldl_addMonitoredFolder_sub (l : List String) (folders : List String) (g : String)
    (h : g ∈ folders) : g ∈ l.foldl addMonitoredFolder folders := by
  induction l generalizing folders with
  | nil => exact h
  | cons x xs ih => exact ih _ (addMonitoredFolder_sub folders x g h)

theorem registerInstaller_folders_sub (st : DetectorState) (p : ProcInfo) (g : String)
    (h : g ∈ st.monitoredFolders) : g ∈ (registerInstaller st p).monitoredFolders := by
  unfold registerInstaller
  split
  · split
    · exact h
    · cases p.exe with
      | none => exact h
      | some exe => exact foldl_addMonitoredFolder_sub _ _ _ h
  · exact h

theorem foldl_registerInstaller_folders_sub (procs : List ProcInfo) (st : DetectorState)
    (g : String) (h : g ∈ st.monitoredFolders) :
    g ∈ (procs.foldl registerInstaller st).monitoredFolders := by
  induction procs generalizing st with
  | nil => exact h
  | cons x xs ih => exact ih _ (registerInstaller_folders_sub st x g h)

/-- Claim C9: `_check_running_installers` removes completed pids but never a
monitored folder (the folder set grows monotonically); with no active
installer `is_file_being_installed` is `False` for every path; with at least
one active installer it is `True` for any path under any previously
monitored folder, even one that belonged to a long-finished installer. -/
theorem installer_folders_grow_monotonically (st : DetectorState) (procs : List ProcInfo)
    (p : String) :
    (∀ g ∈ st.monitoredFolders, g ∈ (check_running_installers st procs).monitoredFolders) ∧
    ((check_running_installers st procs).activeInstallers = [] →
      is_file_being_installed (check_running_installers st procs) p = false) ∧
    ((check_running_installers st procs).activeInstallers ≠ [] →
      ∀ g ∈ st.monitoredFolders, pyStartsWith (pyLower p) g = true →
      is_file_being_installed (check_running_installers st procs) p = true) := by
  refine ⟨?_, ?_, ?_⟩
  · intro g hg
    show g ∈ (procs.foldl registerInstaller st).monitoredFolders
    exact foldl_registerInstaller_folders_sub procs st g hg
  · intro hempty
    unfold is_file_being_installed is_installation_active
    rw [hempty]
    rfl
  · intro hne g hg hpre
    unfold is_file_being_installed is_installation_active
    have hlen : 0 < (check_running_installers st procs).activeInstallers.length :=
      List.length_pos.mpr hne
    rw [decide_eq_true hlen]
    simp only [Bool.not_true, Bool.false_eq_true, if_false]
    rw [List.any_eq_true]
    refine ⟨g, ?_, hpre⟩
    show g ∈ (procs.foldl registerInstaller st).monitoredFolders
    exact foldl_registerInstaller_folders_sub procs st g hg

/-- Witness for `installer_folders_grow_monotonically`: a stale folder from a
finished installer still flags paths while an unrelated installer runs. -/
theorem installer_folders_grow_monotonically_witness :
    is_file_being_installed
      (check_running_installers
        ⟨[], ["c:/old/braveupdate"]⟩
        [⟨7, "msiexec.exe", some "c:/windows/system32/msiexec.exe"⟩])
      "c:/old/braveupdate/payload.dll" = true :=
  (installer_folders_grow_monotonically ⟨[], ["c:/old/braveupdate"]⟩
      [⟨7, "msiexec.exe", some "c:/windows/system32/msiexec.exe"⟩]
      "c:/old/braveupdate/payload.dll").2.2
    (by decide) "c:/old/braveupdate" (by decide) (by decide)

/-! ## Signature compiler (Scanning/yara_engine.py)

`compile_yara_rules` walks the rules root: `walk` is the `os.walk`
enumeration as (directory, filename) pairs, `ok` tells whether a single
file compiles cleanly, and `finalCompileOk` whether the final combined
`yara.compile(filepaths=...)` succeeds.  The accumulator is a Python dict
keyed by *basename* (`valid_rule_files[file] = full_path`). -/

def dictInsert (d : List (String × String)) (k v : String) : List (String × String) :=
  if d.any (fun e => e.1 == k) then d.map (fun e => if e.1 == k then (k, v) else e)
  else d ++ [(k, v)]

def dictKeys (d : List (String × String)) : List String := d.map Prod.fst

/-- Which walk entries enter the dict: `.yar` suffix and individually
compilable. -/
def ruleWalkKeep (ok : String → Bool) (e : String × String) : Bool :=
  pyEndsWith e.2 ".yar" && ok (e.1 ++ "/" ++ e.2)

def buildValidRuleFiles (walk : List (String × String)) (ok : String → Bool) :
    List (String × String) :=
  walk.foldl
    (fun d e => if ruleWalkKeep ok e then dictInsert d e.2 (e.1 ++ "/" ++ e.2) else d) []

/-- `compile_yara_rules`: `(None, 0)` when no rule file is valid or the
combined compile throws, otherwise the dict and its size. -/
def compile_yara_rules (walk : List (String × String)) (ok : String → Bool)
    (finalCompileOk : Bool) : Option (List (String × String)) × Nat :=
  let valid := buildValidRuleFiles walk ok
  if valid.isEmpty then (none, 0)
  else if finalCompileOk then (some valid, valid.length)
  else (none, 0)

theorem dictKeys_replace (d : List (String × String)) (k v : String) :
    dictKeys (d.map (fun e => if e.1 == k then (k, v) else e)) = dictKeys d := by
  unfold dictKeys
  rw [List.map_map]
  refine List.map_congr_left ?_
  intro e _
  show (if e.1 == k then (k, v) else e).1 = e.1
  by_cases h : e.1 == k
  · rw [if_pos h]
    exact (beq_iff_eq.mp h).symm
  · rw [if_neg h]

theorem dictInsert_keys_nodup (d : List (String × String)) (k v : String)
    (h : (dictKeys d).Nodup) : (dictKeys (dictInsert d k v)).Nodup := by
  unfold dictInsert
  split
  · rw [dictKeys_replace]
    exact h
  · rename_i hany
    unfold dictKeys
    rw [List.map_append]
    show (dictKeys d ++ [k]).Nodup
    rw [← List.concat_eq_append]
    refine List.Nodup.concat ?_ h
    intro hk
    apply hany
    rw [List.any_eq_true]
    unfold dictKeys at hk
    obtain ⟨e, he, hke⟩ := List.mem_map.mp hk
    exact ⟨e, he, beq_iff_eq.mpr hke⟩

theorem dictInsert_keys_toFinset (d : List (String × String)) (k v : String) :
    (dictKeys (dictInsert d k v)).toFinset = insert k (dictKeys d).toFinset := by
  unfold dictInsert
  split
  · rename_i hany
    rw [dictKeys_replace]
    rw [List.any_eq_true] at hany
    obtain ⟨e, he, hke⟩ := hany
    have hk : k ∈ (dictKeys d).toFinset := by
      rw [List.mem_toFinset]
      exact beq_iff_eq.mp hke ▸ List.mem_map_of_mem Prod.fst he
    rw [Finset.insert_eq_self.mpr hk]
  · unfold dictKeys
    rw [List.map_append]
    ext x
    simp [or_comm]

theorem buildValid_keys_nodup (walk : List (String × String)) (ok : String → Bool) :
    ∀ d : List (String × String), (dictKeys d).Nodup →
      (dictKeys (walk.foldl
        (fun d e => if ruleWalkKeep ok e then dictInsert d e.2 (e.1 ++ "/" ++ e.2) else d)
        d)).Nodup := by
  induction walk with
  | nil => exact fun d h => h
  | cons e es ih =>
      intro d h
      rw [List.foldl_cons]
      refine ih _ ?_
      by_cases hk : ruleWalkKeep ok e = true
      · rw [if_pos hk]
        exact dictInsert_keys_nodup d e.2 _ h
      · rw [if_neg hk]
        exact h

theorem buildValid_keys_toFinset (ok : String → Bool) :
    ∀ (walk : List (String × String)) (d : List (String × String)),
      (dictKeys (walk.foldl
        (fun d e => if ruleWalkKeep ok e then dictInsert d e.2 (e.1 ++ "/" ++ e.2) else d)
        d)).toFinset
      = (dictKeys d).toFinset ∪ ((walk.filter (ruleWalkKeep ok)).map Prod.snd).toFinset := by
  intro walk
  induction walk with
  | nil =>
      intro d
      simp
  | cons e es ih =>
      intro d
      rw [List.foldl_cons]
      by_cases hk : ruleWalkKeep ok e = true
      · rw [if_pos hk, ih, dictInsert_keys_toFinset, List.filter_cons_of_pos hk,
          List.map_cons, List.toFinset_cons]
        ext x
        simp only [Finset.mem_union, Finset.mem_insert]
        tauto
      · rw [if_neg hk, ih, List.filter_cons_of_neg (by simpa using hk)]

/-- Claim C10: `compile_yara_rules` keys the compiling-rule dict by basename,
so it holds at most one entry per filename (the keys are duplicate-free) and
the returned rule count equals the number of *distinct* basenames among the
valid rule files, not the number of rule files on disk. -/
theorem compile_yara_rules_counts_distinct_basenames (walk : List (String × String))
    (ok : String → Bool) :
    (compile_yara_rules walk ok true).2
      = ((walk.filter (ruleWalkKeep ok)).map Prod.snd).toFinset.card ∧
    (dictKeys (buildValidRuleFiles walk ok)).Nodup := by
  have hnodup : (dictKeys (buildValidRuleFiles walk ok)).Nodup :=
    buildValid_keys_nodup walk ok [] List.nodup_nil
  have hfin : (dictKeys (buildValidRuleFiles walk ok)).toFinset
      = ((walk.filter (ruleWalkKeep ok)).map Prod.snd).toFinset := by
    have := buildValid_keys_toFinset ok walk []
    simpa [buildValidRuleFiles] using this
  have hlen : (buildValidRuleFiles walk ok).length
      = ((walk.filter (ruleWalkKeep ok)).map Prod.snd).toFinset.card := by
    rw [← hfin, List.toFinset_card_of_nodup hnodup]
    unfold dictKeys
    rw [List.length_map]
  refine ⟨?_, hnodup⟩
  unfold compile_yara_rules
  by_cases he : (buildValidRuleFiles walk ok).isEmpty = true
  · rw [List.isEmpty_iff] at he
    simp only [he, List.isEmpty_nil, if_true]
    rw [he] at hlen
    exact hlen
  · simp only [he, Bool.false_eq_true, if_false, if_true]
    exact hlen

end VWAR
